import Mathlib

/-!
Verification development for the portfolio backend server
(`server.js`): contact-form submission, visitor tracking, blog
fetching, rate limiting and the admin contact-status update, shallowly
embedded as pure Lean functions over explicit stores.
-/

namespace Portfolio

/-- Characters matched by the JavaScript regex class `\s` (and removed
from both ends by `String.prototype.trim`). -/
def isJsWs (c : Char) : Bool :=
  [' ', '\t', '\n', '\x0b', '\x0c', '\r', '\u00A0', '\u1680', '\u2000',
   '\u2001', '\u2002', '\u2003', '\u2004', '\u2005', '\u2006', '\u2007',
   '\u2008', '\u2009', '\u200A', '\u2028', '\u2029', '\u202F', '\u205F',
   '\u3000', '\uFEFF'].contains c

/-- JavaScript `String.prototype.trim`: strip `\s` characters from both
ends of the string. -/
def jsTrim (s : String) : String :=
  String.mk (((s.data.dropWhile isJsWs).reverse.dropWhile isJsWs).reverse)

/-- JavaScript `String.prototype.toLowerCase`, restricted to the ASCII
letters that occur in this code base. -/
def jsLower (s : String) : String :=
  String.mk (s.data.map Char.toLower)

/-- Truthiness of a possibly-absent string field of `req.body`: the
checks `!name`, `!email`, ... in the handler treat `undefined` and the
empty string as falsy. -/
def jsFalsy : Option String → Bool
  | none => true
  | some s => s == ""

/-- A character admitted by the regex class `[^\s@]` of the handler's
`emailRegex`. -/
def goodChar (c : Char) : Bool :=
  !(isJsWs c) && !(c == '@')

/-- Helper for `dotSplitOk`: the list splits as `b ++ '.' :: c` with
`c` nonempty (a dot occurs at a non-final position). -/
def hasDotNotLast : List Char → Bool
  | [] => false
  | [_] => false
  | c :: rest => (c == '.') || hasDotNotLast rest

/-- The list splits as `b ++ '.' :: c` with both `b` and `c`
nonempty. -/
def dotSplitOk : List Char → Bool
  | [] => false
  | _ :: t => hasDotNotLast t

/-- The handler's `emailRegex.test(email)` for
`/^[^\s@]+@[^\s@]+\.[^\s@]+$/`: a nonempty `[^\s@]+` block, an `@`, and
a tail that is all `[^\s@]` and contains an interior dot.  Because the
leading block excludes `@`, the decomposition splits the string at its
first `@`. -/
def emailTest (s : String) : Bool :=
  match s.data.dropWhile (fun c => !(c == '@')) with
  | [] => false
  | _ :: rest =>
      let a := s.data.takeWhile (fun c => !(c == '@'))
      !a.isEmpty && a.all goodChar && rest.all goodChar && dotSplitOk rest

/-- Replace the first element satisfying `p` (a Mongoose `save` of a
document fetched with `findOne`, or a `findByIdAndUpdate`). -/
def replaceFirst {α : Type} (p : α → Bool) (x : α) : List α → List α
  | [] => []
  | y :: ys => if p y then x :: ys else y :: replaceFirst p x ys

/-- The body of a `POST /api/contact` request, with the four
destructured fields of `req.body` (absent field = `none`) and the
request metadata `req.ip` / `req.get('User-Agent')`. -/
structure ContactReq where
  name : Option String
  email : Option String
  subject : Option String
  message : Option String
  ip : String
  userAgent : String
deriving DecidableEq

/-- A persisted document of the `Contact` model.  `status` is declared
in `ContactSchema` with `enum: ['new', 'read', 'replied', 'archived']`
and default `'new'`; the field is a plain string at the storage level
and the enum is only checked by document validation (`save`), not by
`findByIdAndUpdate`. -/
structure Contact where
  id : Nat
  name : String
  email : String
  subject : String
  message : String
  ipAddress : String
  userAgent : String
  status : String
  readAt : Option Nat
  repliedAt : Option Nat
deriving DecidableEq

/-- The `ContactSchema` status enum `['new', 'read', 'replied',
'archived']`. -/
def validStatus (s : String) : Bool :=
  ["new", "read", "replied", "archived"].contains s

/-- The required check `if (!name || !email || !subject || !message)`
at the top of the contact handler. -/
def requiredFieldsMissing (req : ContactReq) : Bool :=
  jsFalsy req.name || jsFalsy req.email || jsFalsy req.subject || jsFalsy req.message

/-- The new `Contact` document built by the handler: every string field
trimmed, the email additionally lower-cased, `status` left to its
schema default `'new'`.  The id stands for the storage-assigned
document id. -/
def normalizeContact (req : ContactReq) (id : Nat) : Contact :=
  { id := id
    name := jsTrim (req.name.getD "")
    email := jsLower (jsTrim (req.email.getD ""))
    subject := jsTrim (req.subject.getD "")
    message := jsTrim (req.message.getD "")
    ipAddress := req.ip
    userAgent := req.userAgent
    status := "new"
    readAt := none
    repliedAt := none }

/-- Mongoose `required: true` on the four trimmed string fields of
`ContactSchema`: document validation run by `contact.save()` rejects an
empty string. -/
def schemaRequiredOk (c : Contact) : Bool :=
  !(c.name == "") && !(c.email == "") && !(c.subject == "") && !(c.message == "")

/-- An outbound email.  `toAddr` is the `to` field of the mail options
(renamed because `to` is reserved); it and `subject` are modelled exactly;
`values` lists, in template order, the dynamic values interpolated into
the `html` body (the static HTML text around them is elided, as no
property depends on it). -/
structure Mail where
  toAddr : String
  subject : String
  values : List String
deriving DecidableEq

/-- The handler's `mailOptions`: the internal alert to the fixed
operator address, interpolating the raw `name`, `email`, `subject`,
`message`, `req.ip`, the user agent and the formatted timestamp. -/
def mailOptionsOf (req : ContactReq) (nowStr : String) : Mail :=
  { toAddr := "sujal309206@gmail.com"
    subject := "Portfolio Contact: " ++ req.subject.getD ""
    values := [req.name.getD "", req.email.getD "", req.subject.getD "",
               req.message.getD "", req.ip, req.userAgent, nowStr] }

/-- The handler's `autoReplyOptions`: the acknowledgment sent to the
raw submitted `email`, interpolating the raw `name`, `subject` and
`message`. -/
def autoReplyOptionsOf (req : ContactReq) : Mail :=
  { toAddr := req.email.getD ""
    subject := "Thank you for contacting Sujal Javeri"
    values := [req.name.getD "", req.subject.getD "", req.message.getD ""] }

def successMessage : String :=
  "Message sent successfully! You will receive a confirmation email shortly."

def failMessage : String :=
  "Failed to send message. Please try again later."

/-- Result of the contact handler: HTTP status, response `message`
body, the `Contact` store after the request, and the emails delivered
by the transport. -/
structure ContactOutcome where
  status : Nat
  message : String
  contacts : List Contact
  mails : List Mail
deriving DecidableEq

/-- The `POST /api/contact` handler body.  `send1` / `send2` say
whether the two awaited `transporter.sendMail` calls succeed; a
rejection from either lands in the `catch` block, which answers 500
after `contact.save()` has already committed.  A document-validation
failure of `save` itself also lands in the `catch` with nothing
persisted. -/
def contactHandler (req : ContactReq) (nowStr : String) (send1 send2 : Bool)
    (contacts : List Contact) : ContactOutcome :=
  if requiredFieldsMissing req then
    ⟨400, "All fields are required", contacts, []⟩
  else if !(emailTest (req.email.getD "")) then
    ⟨400, "Invalid email format", contacts, []⟩
  else
    let contact := normalizeContact req contacts.length
    if schemaRequiredOk contact then
      let contacts' := contacts ++ [contact]
      if send1 then
        if send2 then
          ⟨200, successMessage, contacts', [mailOptionsOf req nowStr, autoReplyOptionsOf req]⟩
        else
          ⟨500, failMessage, contacts', [mailOptionsOf req nowStr]⟩
      else
        ⟨500, failMessage, contacts', []⟩
    else
      ⟨500, failMessage, contacts, []⟩

/-- One entry of `VisitorSchema.visitedPages`. -/
structure VisitEvent where
  page : String
  timestamp : Nat
deriving DecidableEq

/-- A persisted document of the `Visitor` model. -/
structure Visitor where
  ipAddress : String
  userAgent : String
  referrer : String
  visitedPages : List VisitEvent
  isReturningVisitor : Bool
  createdAt : Nat
  lastVisit : Nat
deriving DecidableEq

/-- The mutation `trackVisitor` applies to a found visitor: returning
flag set, last-seen bumped, one visit event pushed for the current
path. -/
def updatedVisitor (v : Visitor) (page : String) (now : Nat) : Visitor :=
  { v with isReturningVisitor := true
           lastVisit := now
           visitedPages := v.visitedPages ++ [⟨page, now⟩] }

/-- The fresh document `trackVisitor` creates for an unseen address,
with the schema defaults for the remaining fields. -/
def newVisitor (ip ua ref page : String) (now : Nat) : Visitor :=
  { ipAddress := ip
    userAgent := ua
    referrer := ref
    visitedPages := [⟨page, now⟩]
    isReturningVisitor := false
    createdAt := now
    lastVisit := now }

/-- The `trackVisitor` middleware.  `fail` says whether anything in the
`try` block threw; the `catch` only logs, and `next()` is reached on
both paths (the second component is `true` exactly when the middleware
hands over to the route handler). -/
def trackVisitor (ip ua ref page : String) (now : Nat) (fail : Bool)
    (store : List Visitor) : List Visitor × Bool :=
  if fail then (store, true)
  else
    match store.find? (fun v => v.ipAddress == ip) with
    | some v =>
        (replaceFirst (fun v => v.ipAddress == ip) (updatedVisitor v page now) store, true)
    | none => (store ++ [newVisitor ip ua ref page now], true)

/-- The `contactLimiter` configuration: `windowMs: 60 * 60 * 1000`. -/
def contactLimiterWindowMs : Nat := 60 * 60 * 1000

/-- The `contactLimiter` configuration: `max: 5`. -/
def contactLimiterMax : Nat := 5

/-- The `contactLimiter` configuration: its fixed `message`. -/
def contactLimiterMessage : String :=
  "Too many contact form submissions, please try again later."

/-- Modelled from the spec: the `express-rate-limit` package itself is
an external dependency, not part of this repository; only its
configuration is.  Per the spec, a limiter "caps contact submissions
per address over a 1-hour window": a request at time `t` is rejected
when the address's prior requests falling within the window already
reach the cap.  `prior` is the list of arrival times of the earlier
requests from the same address. -/
def rateLimited (windowMs maxReq : Nat) (prior : List Nat) (t : Nat) : Bool :=
  maxReq ≤ (prior.filter (fun t0 => t0 ≤ t && t - t0 < windowMs)).length

/-- Result of the full `POST /api/contact` route (limiter, tracker and
handler together). -/
structure RouteOutcome where
  status : Nat
  message : String
  contacts : List Contact
  visitors : List Visitor
  mails : List Mail
deriving DecidableEq

/-- The route `app.post('/api/contact', contactLimiter, trackVisitor,
handler)`: the limiter answers first; only when it admits the request
does the tracker run and the handler execute. -/
def postContactRoute (prior : List Nat) (t : Nat) (req : ContactReq)
    (ref page : String) (trackFail : Bool) (now : Nat) (nowStr : String)
    (send1 send2 : Bool) (visitors : List Visitor) (contacts : List Contact) :
    RouteOutcome :=
  if rateLimited contactLimiterWindowMs contactLimiterMax prior t then
    ⟨429, contactLimiterMessage, contacts, visitors, []⟩
  else
    let tv := trackVisitor req.ip req.userAgent ref page now trackFail visitors
    let o := contactHandler req nowStr send1 send2 contacts
    ⟨o.status, o.message, o.contacts, tv.1, o.mails⟩

/-- A persisted document of the `Blog` model (fields not touched by the
slug route are elided). -/
structure Blog where
  title : String
  slug : String
  content : String
  published : Bool
  views : Nat
  likes : Nat
deriving DecidableEq

/-- The view-count bump `blog.views += 1` before `blog.save()`. -/
def bumpBlog (b : Blog) : Blog :=
  { b with views := b.views + 1 }

/-- The `GET /api/blog/:slug` handler: `findOne({ slug })`, 404 when
absent, otherwise increment the view counter, save, and return the
(incremented) document.  Result: (status, response body), new store. -/
def getBlogBySlug (slug : String) (store : List Blog) :
    (Nat × Option Blog) × List Blog :=
  match store.find? (fun b => b.slug == slug) with
  | none => ((404, none), store)
  | some b =>
      ((200, some (bumpBlog b)),
       replaceFirst (fun x => x.slug == slug) (bumpBlog b) store)

/-- The update document of `PATCH /api/admin/contacts/:id` applied by
`findByIdAndUpdate`: `status` from the body as-is (no `runValidators`
option is passed, so the schema enum is not checked on update), and
`readAt` / `repliedAt` set to now exactly when the new status is
`'read'` / `'replied'` (the `undefined` branches are stripped from the
update). -/
def applyContactPatch (c : Contact) (status : Option String) (now : Nat) : Contact :=
  { c with status := status.getD c.status
           readAt := if status == some "read" then some now else c.readAt
           repliedAt := if status == some "replied" then some now else c.repliedAt }

/-- `Contact.findByIdAndUpdate(id, patch, { new: true })`: `none` when
no document has the id, otherwise the updated document and store. -/
def findByIdAndUpdateContact (id : Nat) (status : Option String) (now : Nat)
    (store : List Contact) : Option Contact × List Contact :=
  match store.find? (fun c => c.id == id) with
  | none => (none, store)
  | some c =>
      (some (applyContactPatch c status now),
       replaceFirst (fun x => x.id == id) (applyContactPatch c status now) store)

/-- Outcome of `authenticateToken` as seen by the route: `none` = no
token (401), `some false` = invalid token (403), `some true` =
verified. -/
def AuthState : Type := Option Bool

/-- The `PATCH /api/admin/contacts/:id` route with its
`authenticateToken` gate.  Result: (status, response contact), new
store. -/
def patchContactRoute (auth : Option Bool) (id : Nat) (status : Option String)
    (now : Nat) (store : List Contact) : (Nat × Option Contact) × List Contact :=
  match auth with
  | none => ((401, none), store)
  | some false => ((403, none), store)
  | some true =>
      match findByIdAndUpdateContact id status now store with
      | (none, store') => ((404, none), store')
      | (some c, store') => ((200, some c), store')


/-- The valid submission of the spec's worked example. -/
def exReq : ContactReq :=
  { name := some "A"
    email := some "a@b.com"
    subject := some "Hi"
    message := some "Test"
    ip := "203.0.113.9"
    userAgent := "curl/8" }

/-- A submission with an untrimmed name and a mixed-case email, still
passing validation. -/
def exReqRaw : ContactReq :=
  { name := some " Alice "
    email := some "A@B.com"
    subject := some "Hi"
    message := some "Test"
    ip := "203.0.113.9"
    userAgent := "curl/8" }

/-- A submission whose `subject` field is absent. -/
def exReqMissing : ContactReq :=
  { name := some "A"
    email := some "a@b.com"
    subject := none
    message := some "Test"
    ip := "203.0.113.9"
    userAgent := "curl/8" }

/-- A submission whose `name` is a single space: truthy, so the
required check passes, though it trims to the empty string. -/
def exReqWs : ContactReq :=
  { name := some " "
    email := some "a@b.com"
    subject := some "Hi"
    message := some "Test"
    ip := "203.0.113.9"
    userAgent := "curl/8" }

/-- A previously-seen visitor used in concrete instantiations. -/
def exVisitor : Visitor :=
  { ipAddress := "203.0.113.9"
    userAgent := "curl/8"
    referrer := ""
    visitedPages := [⟨"/", 1⟩]
    isReturningVisitor := false
    createdAt := 1
    lastVisit := 1 }

/-- A persisted contact used in concrete instantiations. -/
def exContact : Contact :=
  { id := 0
    name := "A"
    email := "a@b.com"
    subject := "Hi"
    message := "Test"
    ipAddress := "203.0.113.9"
    userAgent := "curl/8"
    status := "new"
    readAt := none
    repliedAt := none }

/-- A persisted blog post used in concrete instantiations. -/
def exBlog : Blog :=
  { title := "Post"
    slug := "post"
    content := "body"
    published := true
    views := 3
    likes := 0 }

/-! ## Helper lemmas -/

theorem dropWhile_head_false {α : Type} (p : α → Bool) (l : List α) :
    ∀ (x : α) (rest : List α), l.dropWhile p = x :: rest → p x = false := by
  induction l with
  | nil => intro x rest h; simp [List.dropWhile] at h
  | cons a t ih =>
      intro x rest h
      by_cases hp : p a = true
      · rw [List.dropWhile_cons_of_pos hp] at h
        exact ih x rest h
      · rw [List.dropWhile_cons_of_neg hp] at h
        injection h with h1 _
        subst h1
        simpa using hp

theorem dropWhile_eq_nil_of_all {α : Type} (p : α → Bool) (l : List α)
    (h : ∀ c ∈ l, p c = true) : l.dropWhile p = [] := by
  induction l with
  | nil => rfl
  | cons a t ih =>
      rw [List.dropWhile_cons_of_pos (h a (List.mem_cons_self a t))]
      exact ih fun c hc => h c (List.mem_cons_of_mem a hc)

theorem takeWhile_append_split {α : Type} (p : α → Bool) (x : α) (t : List α)
    (hx : p x = false) (a : List α) (hall : ∀ c ∈ a, p c = true) :
    (a ++ x :: t).takeWhile p = a ∧ (a ++ x :: t).dropWhile p = x :: t := by
  induction a with
  | nil =>
      refine ⟨?_, ?_⟩
      · simp [List.takeWhile_cons, hx]
      · simp [List.dropWhile_cons, hx]
  | cons c a ih =>
      have hc : p c = true := hall c (List.mem_cons_self c a)
      have h2 := ih fun d hd => hall d (List.mem_cons_of_mem c hd)
      refine ⟨?_, ?_⟩
      · simpa [List.takeWhile_cons, hc] using h2.1
      · simpa [List.dropWhile_cons, hc] using h2.2

theorem hasDotNotLast_iff : ∀ (l : List Char),
    hasDotNotLast l = true ↔ ∃ b c, l = b ++ '.' :: c ∧ c ≠ []
  | [] => by
      simp only [hasDotNotLast, Bool.false_eq_true, false_iff]
      rintro ⟨b, c, h, -⟩
      exact List.cons_ne_nil _ _ (List.append_eq_nil.mp h.symm).2
  | [x] => by
      simp only [hasDotNotLast, Bool.false_eq_true, false_iff]
      rintro ⟨b, c, h, hc⟩
      cases b with
      | nil =>
          have h' : '.' = x ∧ c = [] := by simpa using h.symm
          exact hc h'.2
      | cons z b' => simp at h
  | x :: y :: t => by
      have ih := hasDotNotLast_iff (y :: t)
      constructor
      · intro h
        have h0 : (x == '.') = true ∨ hasDotNotLast (y :: t) = true := by
          simpa [hasDotNotLast] using h
        rcases h0 with h1 | h2
        · refine ⟨[], y :: t, ?_, by simp⟩
          have hx : x = '.' := by simpa using h1
          simp [hx]
        · obtain ⟨b, c, hbc, hc⟩ := ih.mp h2
          exact ⟨x :: b, c, by simp [hbc], hc⟩
      · rintro ⟨b, c, hbc, hc⟩
        cases b with
        | nil =>
            have h' : x = '.' ∧ y :: t = c := by simpa using hbc
            simp [hasDotNotLast, h'.1]
        | cons z b' =>
            have h' : x = z ∧ y :: t = b' ++ '.' :: c := by simpa using hbc
            have h2 := ih.mpr ⟨b', c, h'.2, hc⟩
            simp [hasDotNotLast, h2]

theorem dotSplitOk_iff (l : List Char) :
    dotSplitOk l = true ↔ ∃ b c, l = b ++ '.' :: c ∧ b ≠ [] ∧ c ≠ [] := by
  cases l with
  | nil =>
      simp only [dotSplitOk, Bool.false_eq_true, false_iff]
      rintro ⟨b, c, h, -, -⟩
      exact List.cons_ne_nil _ _ (List.append_eq_nil.mp h.symm).2
  | cons x t =>
      simp only [dotSplitOk]
      rw [hasDotNotLast_iff t]
      constructor
      · rintro ⟨b, c, hbc, hc⟩
        exact ⟨x :: b, c, by simp [hbc], by simp, hc⟩
      · rintro ⟨b, c, hbc, hb, hc⟩
        cases b with
        | nil => exact absurd rfl hb
        | cons z b' =>
            have h' : x = z ∧ t = b' ++ '.' :: c := by simpa using hbc
            exact ⟨b', c, h'.2, hc⟩

theorem append_cons_inj {α : Type} (x : α) (a : List α) :
    ∀ (c b d : List α), x ∉ a → x ∉ c → a ++ x :: b = c ++ x :: d →
      a = c ∧ b = d := by
  induction a with
  | nil =>
      intro c b d _ hc h
      cases c with
      | nil => exact ⟨rfl, by simpa using h⟩
      | cons z c' =>
          have h' : x = z ∧ b = c' ++ x :: d := by simpa using h
          exact absurd (by simp [h'.1]) hc
  | cons y a' ih =>
      intro c b d ha hc h
      cases c with
      | nil =>
          have h' : y = x ∧ a' ++ x :: b = d := by simpa using h
          exact absurd (by simp [h'.1.symm]) ha
      | cons z c' =>
          have h' : y = z ∧ a' ++ x :: b = c' ++ x :: d := by simpa using h
          have hrec := ih c' b d (fun hm => ha (List.mem_cons_of_mem y hm))
            (fun hm => hc (List.mem_cons_of_mem z hm)) h'.2
          exact ⟨by simp [h'.1, hrec.1], hrec.2⟩

theorem good_of_all {l : List Char} (h : l.all goodChar = true) :
    ∀ c ∈ l, goodChar c = true :=
  List.all_eq_true.mp h

theorem ne_at_of_good {c : Char} (h : goodChar c = true) : (!(c == '@')) = true := by
  unfold goodChar at h
  cases hh : (c == '@') with
  | false => simp
  | true => rw [hh] at h; simp at h

theorem at_not_mem_of_all_good {l : List Char} (h : l.all goodChar = true) :
    '@' ∉ l := by
  intro hm
  have := good_of_all h '@' hm
  simp [goodChar] at this

theorem emailTest_iff (s : String) :
    emailTest s = true ↔ ∃ a b c : List Char,
      s.data = a ++ '@' :: (b ++ '.' :: c) ∧ a ≠ [] ∧ b ≠ [] ∧ c ≠ [] ∧
      a.all goodChar = true ∧ b.all goodChar = true ∧ c.all goodChar = true := by
  constructor
  · intro h
    unfold emailTest at h
    cases hdw : s.data.dropWhile (fun c => !(c == '@')) with
    | nil => rw [hdw] at h; simp at h
    | cons x rest =>
        rw [hdw] at h
        simp only [Bool.and_eq_true] at h
        obtain ⟨⟨⟨hne, hallA⟩, hallRest⟩, hdot⟩ := h
        have hx : (fun c => !(c == '@')) x = false :=
          dropWhile_head_false _ s.data x rest hdw
        have hx' : x = '@' := by simpa using hx
        have hsplit := List.takeWhile_append_dropWhile (fun c => !(c == '@')) s.data
        rw [hdw] at hsplit
        obtain ⟨b, c, hbc, hb, hc⟩ := (dotSplitOk_iff rest).mp hdot
        rw [hx', hbc] at hsplit
        refine ⟨s.data.takeWhile (fun c => !(c == '@')), b, c, ?_, ?_, hb, hc, hallA, ?_, ?_⟩
        · exact hsplit.symm
        · intro hnil
          rw [hnil] at hne
          simp at hne
        · rw [hbc, List.all_append] at hallRest
          simp only [Bool.and_eq_true] at hallRest
          exact hallRest.1
        · rw [hbc, List.all_append, List.all_cons] at hallRest
          simp only [Bool.and_eq_true] at hallRest
          exact hallRest.2.2
  · rintro ⟨a, b, c, hs, ha, hb, hc, hga, hgb, hgc⟩
    have hat : (fun ch => !(ch == '@')) '@' = false := by simp
    have hall : ∀ ch ∈ a, (fun ch => !(ch == '@')) ch = true :=
      fun ch hm => ne_at_of_good (good_of_all hga ch hm)
    have hsp := takeWhile_append_split (fun ch => !(ch == '@')) '@' (b ++ '.' :: c) hat a hall
    have hdot : dotSplitOk (b ++ '.' :: c) = true :=
      (dotSplitOk_iff (b ++ '.' :: c)).mpr ⟨b, c, rfl, hb, hc⟩
    have hdotgood : goodChar '.' = true := by decide
    have hrest : (b ++ '.' :: c).all goodChar = true := by
      rw [List.all_append, List.all_cons]
      simp [hgb, hgc, hdotgood]
    unfold emailTest
    rw [hs, hsp.2, hsp.1]
    simp [hga, hrest, hdot, ha]

/-- Claim C3: a string with no `@`, or whose domain part (the segment
after the last `@`) has no dot, fails `emailRegex.test`, and so the
handler answers 400 Invalid email format; the regex accepts exactly the
strings of shape `local@domain.tld` over the class `[^\s@]`. -/
theorem email_validation_spec (s : String) :
    ('@' ∉ s.data → emailTest s = false) ∧
    (∀ l d : List Char, s.data = l ++ '@' :: d → '@' ∉ d → '.' ∉ d →
        emailTest s = false) ∧
    (emailTest s = true ↔ ∃ a b c : List Char,
      s.data = a ++ '@' :: (b ++ '.' :: c) ∧ a ≠ [] ∧ b ≠ [] ∧ c ≠ [] ∧
      a.all goodChar = true ∧ b.all goodChar = true ∧ c.all goodChar = true) ∧
    (∀ (req : ContactReq) (nowStr : String) (s1 s2 : Bool) (contacts : List Contact),
      req.email = some s → requiredFieldsMissing req = false → emailTest s = false →
      contactHandler req nowStr s1 s2 contacts = ⟨400, "Invalid email format", contacts, []⟩) := by
  refine ⟨?_, ?_, emailTest_iff s, ?_⟩
  · intro hnot
    cases h : emailTest s with
    | false => rfl
    | true =>
        obtain ⟨a, b, c, hdec, -, -, -, -, -, -⟩ := (emailTest_iff s).mp h
        exact absurd (by rw [hdec]; simp) hnot
  · intro l d hs hd1 hd2
    cases h : emailTest s with
    | false => rfl
    | true =>
        obtain ⟨a, b, c, hdec, ha, hb, hc, hga, hgb, hgc⟩ := (emailTest_iff s).mp h
        have hca : a.count '@' = 0 := List.count_eq_zero.mpr (at_not_mem_of_all_good hga)
        have hcb : b.count '@' = 0 := List.count_eq_zero.mpr (at_not_mem_of_all_good hgb)
        have hcc : c.count '@' = 0 := List.count_eq_zero.mpr (at_not_mem_of_all_good hgc)
        have hcd : d.count '@' = 0 := List.count_eq_zero.mpr hd1
        have h1 : s.data.count '@' = 1 := by
          rw [hdec]
          simp [List.count_append, List.count_cons, hca, hcb, hcc]
        have h2 : s.data.count '@' = l.count '@' + 1 := by
          rw [hs]
          simp [List.count_append, List.count_cons, hcd]
        have hl : '@' ∉ l := by
          rw [h1] at h2
          exact List.count_eq_zero.mp (by omega)
        have heq : a ++ '@' :: (b ++ '.' :: c) = l ++ '@' :: d := hdec.symm.trans hs
        have hsplit := append_cons_inj '@' a l (b ++ '.' :: c) d
          (at_not_mem_of_all_good hga) hl heq
        exact absurd (by rw [← hsplit.2]; simp) hd2
  · intro req nowStr s1 s2 contacts he hreq hfalse
    simp [contactHandler, hreq, he, hfalse]

theorem email_validation_spec_witness :
    ('@' ∉ "nodomain".data) ∧ emailTest "nodomain" = false :=
  ⟨by decide, (email_validation_spec "nodomain").1 (by decide)⟩

/-- Claim C1: a validated submission is persisted before the two sends,
so the persisted outcome (exactly one appended record) is the same
whatever the send flags; when a send fails, the handler answers 500
with the try-again message while the record remains stored. -/
theorem contact_persisted_regardless_of_send (req : ContactReq) (nowStr : String)
    (contacts : List Contact) (s1 s2 : Bool)
    (hreq : requiredFieldsMissing req = false)
    (hem : emailTest (req.email.getD "") = true)
    (hsv : schemaRequiredOk (normalizeContact req contacts.length) = true) :
    (contactHandler req nowStr s1 s2 contacts).contacts
        = contacts ++ [normalizeContact req contacts.length] ∧
    (contactHandler req nowStr s1 s2 contacts).contacts
        = (contactHandler req nowStr true true contacts).contacts ∧
    (s1 = false ∨ s2 = false →
      (contactHandler req nowStr s1 s2 contacts).status = 500 ∧
      (contactHandler req nowStr s1 s2 contacts).message = failMessage) := by
  cases s1 <;> cases s2 <;> simp [contactHandler, hreq, hem, hsv]

theorem contact_persisted_regardless_of_send_witness :
    (contactHandler exReq "ts" false true []).contacts = [normalizeContact exReq 0] ∧
    (contactHandler exReq "ts" false true []).status = 500 := by
  have h := contact_persisted_regardless_of_send exReq "ts" [] false true
    (by decide) (by decide) (by decide)
  exact ⟨by simpa using h.1, (h.2.2 (Or.inl rfl)).1⟩

/-- Claim C2: when any of the four fields is missing (or empty, hence
falsy), the handler answers 400 with no contact persisted and no mail
sent. -/
theorem missing_field_rejected (req : ContactReq) (nowStr : String) (s1 s2 : Bool)
    (contacts : List Contact) (h : requiredFieldsMissing req = true) :
    contactHandler req nowStr s1 s2 contacts
      = ⟨400, "All fields are required", contacts, []⟩ := by
  simp [contactHandler, h]

theorem missing_field_rejected_witness :
    requiredFieldsMissing exReqMissing = true ∧
    contactHandler exReqMissing "ts" true true []
      = ⟨400, "All fields are required", [], []⟩ :=
  ⟨by decide, missing_field_rejected exReqMissing "ts" true true [] (by decide)⟩

/-- Claim C4: a validated submission yields 200 and exactly one
appended record whose fields are trimmed, whose email is lower-cased,
and whose status is the schema default new. -/
theorem valid_submission_success (req : ContactReq) (nowStr : String)
    (contacts : List Contact)
    (hreq : requiredFieldsMissing req = false)
    (hem : emailTest (req.email.getD "") = true)
    (hsv : schemaRequiredOk (normalizeContact req contacts.length) = true) :
    (contactHandler req nowStr true true contacts).status = 200 ∧
    (contactHandler req nowStr true true contacts).message = successMessage ∧
    (contactHandler req nowStr true true contacts).contacts
        = contacts ++ [normalizeContact req contacts.length] ∧
    (normalizeContact req contacts.length).name = jsTrim (req.name.getD "") ∧
    (normalizeContact req contacts.length).email
        = jsLower (jsTrim (req.email.getD "")) ∧
    (normalizeContact req contacts.length).subject = jsTrim (req.subject.getD "") ∧
    (normalizeContact req contacts.length).message = jsTrim (req.message.getD "") ∧
    (normalizeContact req contacts.length).status = "new" := by
  have hh : contactHandler req nowStr true true contacts =
      ⟨200, successMessage, contacts ++ [normalizeContact req contacts.length],
       [mailOptionsOf req nowStr, autoReplyOptionsOf req]⟩ := by
    simp [contactHandler, hreq, hem, hsv]
  rw [hh]
  simp [normalizeContact]

theorem valid_submission_success_witness :
    (contactHandler exReq "ts" true true []).status = 200 ∧
    (contactHandler exReq "ts" true true []).contacts = [exContact] := by
  have h := valid_submission_success exReq "ts" [] (by decide) (by decide) (by decide)
  exact ⟨h.1, by rw [h.2.2.1]; decide⟩

/-- Claim C9: any submission whose four fields are present, nonempty
strings passes the required check, even when a field is only
whitespace, in which case the value the normalized record would store
is empty. -/
theorem whitespace_passes_required_check (req : ContactReq)
    (n e su m : String)
    (hn : req.name = some n) (he : req.email = some e)
    (hs : req.subject = some su) (hm : req.message = some m)
    (h1 : n ≠ "") (h2 : e ≠ "") (h3 : su ≠ "") (h4 : m ≠ "") :
    requiredFieldsMissing req = false ∧
    (n.data.all isJsWs = true → jsTrim n = "") := by
  constructor
  · simp [requiredFieldsMissing, jsFalsy, hn, he, hs, hm, h1, h2, h3, h4]
  · intro hws
    unfold jsTrim
    rw [dropWhile_eq_nil_of_all isJsWs n.data (List.all_eq_true.mp hws)]
    rfl

theorem whitespace_passes_required_check_witness :
    requiredFieldsMissing exReqWs = false ∧ jsTrim " " = "" := by
  have h := whitespace_passes_required_check exReqWs " " "a@b.com" "Hi" "Test"
    (by decide) (by decide) (by decide) (by decide)
    (by decide) (by decide) (by decide) (by decide)
  exact ⟨h.1, h.2 (by decide)⟩

/-- Claim C10: the two notification emails are built from the raw body
values: the acknowledgment goes to the submitted email exactly as
given, both interpolate the untrimmed fields, while the persisted
record stores trimmed, lower-cased values. -/
theorem mails_use_raw_values (req : ContactReq) (nowStr : String)
    (contacts : List Contact)
    (hreq : requiredFieldsMissing req = false)
    (hem : emailTest (req.email.getD "") = true)
    (hsv : schemaRequiredOk (normalizeContact req contacts.length) = true) :
    (contactHandler req nowStr true true contacts).mails
        = [mailOptionsOf req nowStr, autoReplyOptionsOf req] ∧
    (autoReplyOptionsOf req).toAddr = req.email.getD "" ∧
    (mailOptionsOf req nowStr).values
        = [req.name.getD "", req.email.getD "", req.subject.getD "",
           req.message.getD "", req.ip, req.userAgent, nowStr] ∧
    (autoReplyOptionsOf req).values
        = [req.name.getD "", req.subject.getD "", req.message.getD ""] ∧
    (mailOptionsOf req nowStr).subject
        = "Portfolio Contact: " ++ req.subject.getD "" ∧
    (contactHandler req nowStr true true contacts).contacts
        = contacts ++ [normalizeContact req contacts.length] ∧
    (normalizeContact req contacts.length).email
        = jsLower (jsTrim (req.email.getD "")) ∧
    (normalizeContact req contacts.length).name = jsTrim (req.name.getD "") := by
  have hh : contactHandler req nowStr true true contacts =
      ⟨200, successMessage, contacts ++ [normalizeContact req contacts.length],
       [mailOptionsOf req nowStr, autoReplyOptionsOf req]⟩ := by
    simp [contactHandler, hreq, hem, hsv]
  rw [hh]
  simp [normalizeContact, mailOptionsOf, autoReplyOptionsOf]

theorem mails_use_raw_values_witness :
    (contactHandler exReqRaw "ts" true true []).mails
        = [mailOptionsOf exReqRaw "ts", autoReplyOptionsOf exReqRaw] ∧
    (autoReplyOptionsOf exReqRaw).toAddr = "A@B.com" ∧
    (normalizeContact exReqRaw 0).email = "a@b.com" ∧
    (normalizeContact exReqRaw 0).name = "Alice" := by
  have h := mails_use_raw_values exReqRaw "ts" [] (by decide) (by decide) (by decide)
  exact ⟨h.1, by decide, by decide, by decide⟩

/-- Claim C5 (limiter algorithm modelled from the spec; the window,
cap and message constants are the source's): when at least
`contactLimiterMax` earlier submissions from the address fall within
the hour before the request, it is answered 429 with the fixed limiter
message, and neither store changes nor is any mail sent. -/
theorem rate_limited_rejected (prior : List Nat) (t : Nat) (req : ContactReq)
    (ref page : String) (trackFail : Bool) (now : Nat) (nowStr : String)
    (s1 s2 : Bool) (visitors : List Visitor) (contacts : List Contact)
    (h : contactLimiterMax ≤
      (prior.filter (fun t0 => t0 ≤ t && t - t0 < contactLimiterWindowMs)).length) :
    postContactRoute prior t req ref page trackFail now nowStr s1 s2 visitors contacts
      = ⟨429, contactLimiterMessage, contacts, visitors, []⟩ := by
  have hb : rateLimited contactLimiterWindowMs contactLimiterMax prior t = true := by
    simp [rateLimited, h]
  simp [postContactRoute, hb]

theorem rate_limited_rejected_witness :
    postContactRoute [0, 1, 2, 3, 4] 5 exReq "" "/api/contact" false 5 "ts"
        true true [] []
      = ⟨429, contactLimiterMessage, [], [], []⟩ :=
  rate_limited_rejected [0, 1, 2, 3, 4] 5 exReq "" "/api/contact" false 5 "ts"
    true true [] [] (by decide)

/-- Claim C6: the tracker always hands over to the route handler, a
failure leaves the store untouched, a found visitor (exact address
match) is updated in place with the returning flag set, last-seen
bumped and exactly one visit event appended, and an unseen address
appends exactly one fresh record with a single visit event. -/
theorem trackVisitor_spec (ip ua ref page : String) (now : Nat)
    (store : List Visitor) :
    (∀ fail : Bool, (trackVisitor ip ua ref page now fail store).2 = true) ∧
    (trackVisitor ip ua ref page now true store).1 = store ∧
    (∀ v, store.find? (fun w => w.ipAddress == ip) = some v →
      (trackVisitor ip ua ref page now false store).1
        = replaceFirst (fun w => w.ipAddress == ip) (updatedVisitor v page now) store ∧
      (updatedVisitor v page now).visitedPages = v.visitedPages ++ [⟨page, now⟩] ∧
      (updatedVisitor v page now).visitedPages.length
        = v.visitedPages.length + 1 ∧
      (updatedVisitor v page now).isReturningVisitor = true ∧
      (updatedVisitor v page now).lastVisit = now) ∧
    (store.find? (fun w => w.ipAddress == ip) = none →
      (trackVisitor ip ua ref page now false store).1
        = store ++ [newVisitor ip ua ref page now] ∧
      (newVisitor ip ua ref page now).visitedPages = [⟨page, now⟩]) := by
  refine ⟨?_, by simp [trackVisitor], ?_, ?_⟩
  · intro fail
    cases fail with
    | true => simp [trackVisitor]
    | false =>
        cases hf : store.find? (fun w => w.ipAddress == ip) with
        | none => simp [trackVisitor, hf]
        | some v => simp [trackVisitor, hf]
  · intro v hv
    refine ⟨by simp [trackVisitor, hv], rfl, ?_, rfl, rfl⟩
    simp [updatedVisitor]
  · intro hnone
    exact ⟨by simp [trackVisitor, hnone], rfl⟩

theorem trackVisitor_spec_witness :
    (trackVisitor "203.0.113.9" "curl/8" "" "/about" 2 false [exVisitor]).1
      = [updatedVisitor exVisitor "/about" 2] ∧
    (updatedVisitor exVisitor "/about" 2).visitedPages.length = 2 ∧
    (trackVisitor "203.0.113.9" "curl/8" "" "/about" 2 true [exVisitor]).1
      = [exVisitor] := by
  have h := trackVisitor_spec "203.0.113.9" "curl/8" "" "/about" 2 [exVisitor]
  have h3 := h.2.2.1 exVisitor (by decide)
  refine ⟨by rw [h3.1]; decide, by rw [h3.2.2.1]; decide, h.2.1⟩

/-- Claim C7: fetching a blog post by slug answers 404 with an
unchanged store when no post matches, and otherwise returns the post
with its view counter incremented by exactly one, replacing only that
post in the store. -/
theorem blog_slug_fetch (slug : String) (store : List Blog) :
    (store.find? (fun x => x.slug == slug) = none →
      getBlogBySlug slug store = ((404, none), store)) ∧
    (∀ b, store.find? (fun x => x.slug == slug) = some b →
      getBlogBySlug slug store
        = ((200, some (bumpBlog b)),
           replaceFirst (fun x => x.slug == slug) (bumpBlog b) store) ∧
      (bumpBlog b).views = b.views + 1 ∧
      (bumpBlog b).slug = b.slug) := by
  refine ⟨?_, ?_⟩
  · intro h
    simp [getBlogBySlug, h]
  · intro b hb
    exact ⟨by simp [getBlogBySlug, hb], rfl, rfl⟩

theorem blog_slug_fetch_witness :
    getBlogBySlug "post" [exBlog]
      = ((200, some (bumpBlog exBlog)), [bumpBlog exBlog]) ∧
    (bumpBlog exBlog).views = 4 ∧
    getBlogBySlug "missing" [exBlog] = ((404, none), [exBlog]) := by
  have h := blog_slug_fetch "post" [exBlog]
  have h2 := blog_slug_fetch "missing" [exBlog]
  have hs := h.2 exBlog (by decide)
  exact ⟨by rw [hs.1]; decide, by rw [hs.2.1]; decide, h2.1 (by decide)⟩

/-- Claim C8, evaluated at the failing input: `findByIdAndUpdate` is
called without `runValidators`, so the schema enum is not enforced on
update and a PATCH carrying `status: "bogus"` persists a status outside
`{new, read, replied, archived}` while answering 200 with the updated
record. -/
theorem patch_status_bypasses_enum :
    validStatus "bogus" = false ∧
    patchContactRoute (some true) 0 (some "bogus") 7 [exContact]
      = ((200, some { exContact with status := "bogus" }),
         [{ exContact with status := "bogus" }]) ∧
    validStatus (applyContactPatch exContact (some "bogus") 7).status = false := by
  decide

end Portfolio
